import Mathlib

/-!
Verification development for the ava-scope chain-metrics collector.

The definitions below are a shallow embedding of the collector's worker
(`backend/src/worker/poller.ts`), its metrics service
(`fetchAndProcessBlockRangeForTransfersAndGas`, `getMetrics`) and the
Supabase persistence helpers (`backend/src/lib/supabaseHelpers.ts`),
together with the relevant unique-key constraints of
`supabase_metrics_schema.sql`.

Modelling conventions:
* block numbers and unix timestamps are `Nat`; gas quantities are `Int`
  (the source parses hex into JS numbers and compares with `<=`/`===`);
  derived percentages and TPS values are `ℚ`.
* `toFixed(1)` display rounding is modelled by `roundTo1`.
* an ISO timestamp truncated to the minute (`minuteDate.setSeconds(0,0)`)
  is modelled by integer division of the unix timestamp by 60; the
  correspondence is injective, so bucket keys are preserved.
* JavaScript `Map` objects (insertion ordered) are modelled as
  association lists; database tables as lists of row structures.
* RPC calls are modelled by oracles in a `ChainEnv` record; a call can
  succeed, return a 2xx body that carries no `result` field, or throw.
* store writes go through `insertMetric`, which swallows every error
  after logging; injected insert failures are modelled for
  `gas_utilization_samples` (the table the checkpoint is derived from)
  by the `gasInsertOk` oracle, and elided (treated as succeeding) for
  the transfer-count tables, which no claim interrogates for failures.
-/

namespace AvaScope

/-! ### Transfer event topic constants -/

/-- Topic constant of `backend/src/worker/poller.ts` line 120 and of the
metrics service (`src/unnamed/part_007` line 109).  Copied verbatim from
the source. -/
def TRANSFER_EVENT_TOPIC_collector : String :=
  "0xddf252ad1be2c89b69c2b068fc378daa952ba7f163c4a123bf2ecdcdffac2282"

/-- Topic constant of `backend/scripts/backfillTransfers.ts` line 18,
copied verbatim from the source. -/
def TRANSFER_EVENT_TOPIC_backfill : String :=
  "0xddf252ad1be2c89b69c2b068fc378daa952ba7f163c4a11628f55a4df523b3ef"

/-- The canonical keccak-256 hash of `Transfer(address,address,uint256)`,
as stated in the spec (section 6). -/
def canonicalTransferTopic : String :=
  "0xddf252ad1be2c89b69c2b068fc378daa952ba7f163c4a11628f55a4df523b3ef"

/-- The `topics` array of the `eth_getLogs` request built by
`fetchAndProcessBlockRangeForTransfersAndGas` (`src/unnamed/part_007`
lines 182-186): `topics: [TRANSFER_EVENT_TOPIC]`. -/
def scanGetLogsTopics : List String := [TRANSFER_EVENT_TOPIC_collector]

/-- Modelled from the spec: `getRawLogsForBlockRange` is imported by the
poller from `../services/metrics` but its definition is not among the
source files; per the spec's ChainClient contract the supplied topic is
sent as `topics[0]` of the `eth_getLogs` request.  The poller passes its
own `TRANSFER_EVENT_TOPIC` for that argument (poller.ts line 239). -/
def pollerRawLogsRequestTopics : List String := [TRANSFER_EVENT_TOPIC_collector]

/-! ### Numeric helpers -/

/-- `parseFloat(x.toFixed(1))`: rounding a value to one decimal place,
half up — for the non-negative quantities the collector rounds
(utilization percentages, TPS) this agrees with `toFixed`.  Written with
`Int.fdiv` so that it evaluates by kernel reduction:
`round (10*q) = ⌊10*q + 1/2⌋ = (20*q.num + q.den).fdiv (2*q.den)`. -/
def roundTo1 (q : ℚ) : ℚ := ((20 * q.num + q.den).fdiv (2 * q.den) : ℚ) / 10

/-! ### Live sample computation (`getMetrics`, `src/unnamed/part_007` lines 321-339) -/

/-- `lastBlockTimeSec = timeDiffSeconds >= 0 ? timeDiffSeconds : null`
where `timeDiffSeconds = latest.timestamp - prev.timestamp`. -/
def lastBlockTimeSec (currTs prevTs : Int) : Option Int :=
  let d := currTs - prevTs
  if 0 ≤ d then some d else none

/-- The TPS value computed by `getMetrics`: when the block time is
positive, `parseFloat((txCount / time).toFixed(1))`; when the latest
block has zero transactions and a non-negative block time, an explicit
`0.0`; otherwise `null`. -/
def tpsOf (txCount : Nat) (currTs prevTs : Int) : Option ℚ :=
  match lastBlockTimeSec currTs prevTs with
  | some t =>
      if 0 < t then some (roundTo1 ((txCount : ℚ) / (t : ℚ)))
      else if txCount = 0 ∧ 0 ≤ t then some 0
      else none
  | none => none

/-- A row of the `tps_samples` table. -/
structure TpsRow where
  subnetId : String
  tpsValue : ℚ
deriving DecidableEq

/-- `addTpsSample` (`supabaseHelpers.ts` lines 120-128): a `null` value
makes the helper return without touching the table. -/
def addTpsSample (tbl : List TpsRow) (sid : String) (v : Option ℚ) : List TpsRow :=
  match v with
  | none => tbl
  | some x => { subnetId := sid, tpsValue := x } :: tbl

/-! ### Transfer log classification (`src/unnamed/part_007` lines 236-255) -/

/-- A log entry as consumed by the scan: its topic list and the block
number it occurred in. -/
structure ScanLog where
  topics : List String
  blockNumber : Nat
deriving DecidableEq

/-- `Map.set(k, (Map.get(k) || 0) + 1)` on an insertion-ordered map:
the first binding of `k` is incremented in place; an absent key is
appended with count 1. -/
def bump : List (Nat × Nat) → Nat → List (Nat × Nat)
  | [], k => [(k, 1)]
  | (a, b) :: rest, k =>
      if a = k then (a, b + 1) :: rest else (a, b) :: bump rest k

/-- The count recorded for key `k` (0 when absent). -/
def countOf (m : List (Nat × Nat)) (k : Nat) : Nat := (m.lookup k).getD 0

/-- Classification of one log by the scan: resolve the block's timestamp
from the per-batch map, truncate to the minute, then 3 topics increments
the ERC-20 bucket, 4 topics the ERC-721 bucket, anything else neither.
Logs whose block timestamp is missing are skipped. -/
def classifyLog (tsMap : List (Nat × Nat))
    (counts : List (Nat × Nat) × List (Nat × Nat)) (log : ScanLog) :
    List (Nat × Nat) × List (Nat × Nat) :=
  match tsMap.lookup log.blockNumber with
  | none => counts
  | some ts =>
      let minute := ts / 60
      if log.topics.length = 3 then (bump counts.1 minute, counts.2)
      else if log.topics.length = 4 then (counts.1, bump counts.2 minute)
      else counts

/-! ### Transfer-minute persistence (`supabaseHelpers.ts` lines 89-93 and 168-188) -/

/-- A row of `erc20_transfer_counts` / `erc721_transfer_counts`
(`supabase_metrics_schema.sql`, unique `(subnet_id, minute_timestamp)`). -/
structure ErcMinuteRow where
  subnetId : String
  minuteTimestamp : Nat
  transferCount : Nat
deriving DecidableEq

/-- `addErc20TransferCount` / `addErc721TransferCount` through
`insertMetric`: for these two tables the request carries
`Prefer: resolution=merge-duplicates`, a PostgREST upsert in which, on a
`(subnet_id, minute_timestamp)` conflict, the incoming row's values
replace the stored ones (the spec's design notes record the same
reading: last-write-wins via upsert). -/
def addErcMinuteCount (tbl : List ErcMinuteRow) (sid : String)
    (minute count : Nat) : List ErcMinuteRow :=
  if tbl.any (fun r => r.subnetId = sid ∧ r.minuteTimestamp = minute) then
    tbl.map (fun r =>
      if r.subnetId = sid ∧ r.minuteTimestamp = minute then
        { r with transferCount := count }
      else r)
  else { subnetId := sid, minuteTimestamp := minute, transferCount := count } :: tbl

/-! ### Gas utilization samples and the derived checkpoint -/

/-- A row of `gas_utilization_samples` (`supabase_metrics_schema.sql`
lines 52-62, unique `(subnet_id, block_number)`). -/
structure GasRow where
  subnetId : String
  blockNumber : Nat
  blockTimestamp : Nat
  gasUsed : Int
  gasLimit : Int
  utilizationPercentage : ℚ
deriving DecidableEq

/-- A row of `erc_transfer_counts`, the per-block transfer table used by
the poller's inline ERC pass and the backfill script (unique
`(subnet_id, block_number)`; inserted with
`Prefer: resolution=ignore-duplicates`). -/
structure ErcBlockRow where
  subnetId : String
  blockNumber : Nat
  blockTimestamp : Nat
  erc20Transfers : Nat
  erc721Transfers : Nat
deriving DecidableEq

/-- The tables the collector writes that the claims interrogate. -/
structure Store where
  gasRows : List GasRow
  erc20Rows : List ErcMinuteRow
  erc721Rows : List ErcMinuteRow
  ercBlockRows : List ErcBlockRow
deriving DecidableEq

def emptyStore : Store := { gasRows := [], erc20Rows := [], erc721Rows := [], ercBlockRows := [] }

/-- `addGasUtilizationSample` (`supabaseHelpers.ts` lines 142-166)
through `insertMetric` (lines 97-117): the request is a plain insert
(`Prefer: return=minimal`), the table's `UNIQUE (subnet_id, block_number)`
constraint rejects a duplicate key, and every error — constraint
violation or transport failure — is logged and swallowed, leaving the
table unchanged.  The injected `ok` flag is the transport outcome. -/
def addGasUtilizationSample (ok : Bool) (st : Store) (sid : String)
    (bn ts : Nat) (gu gl : Int) (util : ℚ) : Store :=
  if st.gasRows.any (fun r => r.subnetId = sid ∧ r.blockNumber = bn) then st
  else if ok then
    { st with gasRows :=
        { subnetId := sid, blockNumber := bn, blockTimestamp := ts,
          gasUsed := gu, gasLimit := gl, utilizationPercentage := util } :: st.gasRows }
  else st

/-- `insertErcTransferCountsBatch` (`supabaseHelpers.ts` lines 441-479),
per record: `Prefer: resolution=ignore-duplicates` keeps the stored row
when the `(subnet_id, block_number)` key already exists. -/
def insertErcBlockRow (st : Store) (r : ErcBlockRow) : Store :=
  if st.ercBlockRows.any (fun q => q.subnetId = r.subnetId ∧ q.blockNumber = r.blockNumber)
  then st
  else { st with ercBlockRows := r :: st.ercBlockRows }

/-- Largest element of a list of block numbers, `none` when empty. -/
def maxBlock : List Nat → Option Nat
  | [] => none
  | x :: xs =>
      match maxBlock xs with
      | none => some x
      | some m => some (max x m)

/-- `getLastProcessedBlockForSubnet` (`supabaseHelpers.ts` lines
348-362): the `gas_utilization_samples` rows of the subnet, ordered by
`block_number` descending, limited to one — i.e. the largest persisted
block number, `null` when the subnet has no rows. -/
def getLastProcessedBlockForSubnet (st : Store) (sid : String) : Option Nat :=
  maxBlock ((st.gasRows.filter (fun r => r.subnetId = sid)).map (·.blockNumber))

/-! ### The chain environment (RPC oracles) -/

/-- The fields of `eth_getBlockByNumber` that the collector consumes. -/
structure BlockInfo where
  timestamp : Nat
  gasUsed : Int
  gasLimit : Int
deriving DecidableEq

/-- Outcome of one `eth_getLogs` call made with axios: a 2xx response
whose body has a `result` field, a 2xx response whose body carries a
JSON-RPC error object and hence no `result` (axios does not throw for
it), or a thrown error (network failure, timeout, non-2xx status). -/
inductive LogsOutcome where
  | ok (logs : List ScanLog)
  | errBody
  | throw
deriving DecidableEq

/-- `liveMetrics.blockProduction` as returned by `getMetrics`; each
field is `null` when the underlying fetch failed. -/
structure LiveBP where
  latestBlock : Option Nat
  gasUsed : Option Int
  gasLimit : Option Int
  latestBlockTimestamp : Option Nat
deriving DecidableEq

/-- Oracles standing for the chain RPC endpoint and the injected
transport outcomes of gas-sample inserts during one sweep. -/
structure ChainEnv where
  live : Option LiveBP
  head : Option Nat
  getLogs : Nat → Nat → LogsOutcome
  rawLogs : Nat → Nat → List ScanLog
  getBlock : Nat → Option BlockInfo
  gasInsertOk : Nat → Bool

/-! ### The scan (`fetchAndProcessBlockRangeForTransfersAndGas`, `src/unnamed/part_007` lines 157-286) -/

/-- `MAX_BLOCKS_PER_ETH_GET_LOGS` (`src/unnamed/part_007` line 110). -/
def MAX_BLOCKS_PER_ETH_GET_LOGS : Nat := 1000

/-- The consecutive sub-ranges the source's while loop walks:
`batchToBlock = Math.min(current + size - 1, toBlock)` and
`current = batchToBlock + 1`, starting at `fromBlock`.  Chunk `i` is
`(fromBlock + i*size, min (fromBlock + i*size + (size-1)) toBlock)`. -/
def rangeChunks (size fromB toB : Nat) : List (Nat × Nat) :=
  if fromB > toB then []
  else (List.range ((toB - fromB) / size + 1)).map
    (fun i => (fromB + i * size, min (fromB + i * size + (size - 1)) toB))

/-- Running state of one scan call. -/
structure ScanState where
  store : Store
  lastSuccessfullyProcessedBlock : Int
  attempted : List (Nat × Nat)
  gasAttempts : List Nat
  erc20Counts : List (Nat × Nat)
  erc721Counts : List (Nat × Nat)
  halted : Bool
deriving DecidableEq

/-- One iteration of the scan's inner per-block loop (`src/unnamed/part_007`
lines 198-234): fetch the block's details; on success record its
timestamp and, unless the block is gas-inconsistent
(`gasLimit <= 0` while not both-zero — the `InvalidBlock` skip), attempt
to persist its gas utilization sample. -/
def scanBlockStep (env : ChainEnv) (sid : String)
    (acc : List (Nat × Nat) × Store × List Nat) (bn : Nat) :
    List (Nat × Nat) × Store × List Nat :=
  match env.getBlock bn with
  | none => acc
  | some bi =>
      let tsMap := acc.1 ++ [(bn, bi.timestamp)]
      if 0 < bi.gasLimit then
        let util := roundTo1 ((bi.gasUsed : ℚ) / (bi.gasLimit : ℚ) * 100)
        (tsMap,
         addGasUtilizationSample (env.gasInsertOk bn) acc.2.1 sid bn bi.timestamp
           bi.gasUsed bi.gasLimit util,
         acc.2.2 ++ [bn])
      else if bi.gasLimit = 0 ∧ bi.gasUsed = 0 then
        (tsMap,
         addGasUtilizationSample (env.gasInsertOk bn) acc.2.1 sid bn bi.timestamp
           bi.gasUsed bi.gasLimit 0,
         acc.2.2 ++ [bn])
      else
        (tsMap, acc.2.1, acc.2.2)

/-- `[...new Set(xs)]`: deduplication keeping first occurrences. -/
def dedupFirst (l : List Nat) : List Nat :=
  l.foldl (fun acc x => if x ∈ acc then acc else acc ++ [x]) []

/-- Processing of the logs of one successfully fetched batch
(`src/unnamed/part_007` lines 189-255): resolve details and gas samples
for every distinct block carrying a log, then classify each log into
the minute-bucket counters. -/
def processBatchLogs (env : ChainEnv) (sid : String) (logs : List ScanLog)
    (s : ScanState) : ScanState :=
  let ubs := dedupFirst (logs.map (·.blockNumber))
  let step := ubs.foldl (scanBlockStep env sid) ([], s.store, [])
  let counts := logs.foldl (classifyLog step.1) (s.erc20Counts, s.erc721Counts)
  { s with store := step.2.1, gasAttempts := s.gasAttempts ++ step.2.2,
           erc20Counts := counts.1, erc721Counts := counts.2 }

/-- One sub-range of the scan's while loop (`src/unnamed/part_007`
lines 173-268): a thrown `eth_getLogs` error breaks out of the loop; a
2xx body without a `result` field only logs a warning; in both
non-throwing cases the line `lastSuccessfullyProcessedBlock =
batchToBlock` runs. -/
def scanChunkStep (env : ChainEnv) (sid : String) (s : ScanState)
    (c : Nat × Nat) : ScanState :=
  if s.halted then s
  else
    match env.getLogs c.1 c.2 with
    | .throw => { s with attempted := s.attempted ++ [c], halted := true }
    | .errBody =>
        { s with attempted := s.attempted ++ [c],
                 lastSuccessfullyProcessedBlock := (c.2 : Int) }
    | .ok logs =>
        let s' := processBatchLogs env sid logs s
        { s' with attempted := s'.attempted ++ [c],
                  lastSuccessfullyProcessedBlock := (c.2 : Int) }

/-- The scan's while loop over a given chunk list. -/
def scanChunks (env : ChainEnv) (sid : String) (chunks : List (Nat × Nat))
    (s : ScanState) : ScanState :=
  chunks.foldl (scanChunkStep env sid) s

/-- The scan's initial state (`src/unnamed/part_007` lines 164-169):
`lastSuccessfullyProcessedBlock = fromBlock - 1`, empty aggregates. -/
def scanInit (st : Store) (fromB : Nat) : ScanState :=
  { store := st, lastSuccessfullyProcessedBlock := (fromB : Int) - 1,
    attempted := [], gasAttempts := [], erc20Counts := [],
    erc721Counts := [], halted := false }

/-- The scan's final flush (`src/unnamed/part_007` lines 277-282): each
aggregated minute counter goes through the merge-duplicates upsert. -/
def applyMinuteUpserts (sid : String) (s : ScanState) : ScanState :=
  let st1 := s.erc20Counts.foldl
    (fun acc p => { acc with erc20Rows := addErcMinuteCount acc.erc20Rows sid p.1 p.2 }) s.store
  let st2 := s.erc721Counts.foldl
    (fun acc p => { acc with erc721Rows := addErcMinuteCount acc.erc721Rows sid p.1 p.2 }) st1
  { s with store := st2 }

/-- `fetchAndProcessBlockRangeForTransfersAndGas`: walk the sub-ranges,
then flush the aggregated minute counters. -/
def fetchAndProcessBlockRange (env : ChainEnv) (sid : String)
    (fromB toB : Nat) (st : Store) : ScanState :=
  applyMinuteUpserts sid
    (scanChunks env sid (rangeChunks MAX_BLOCKS_PER_ETH_GET_LOGS fromB toB)
      (scanInit st fromB))

/-! ### The poller (`backend/src/worker/poller.ts` lines 114-344) -/

/-- `INITIAL_HISTORICAL_BLOCK_COUNT` (poller.ts line 115). -/
def INITIAL_HISTORICAL_BLOCK_COUNT : Nat := 2000

/-- `MAX_BLOCKS_TO_PROCESS_PER_CYCLE` (poller.ts line 116). -/
def MAX_BLOCKS_TO_PROCESS_PER_CYCLE : Nat := 500

/-- `ERC_LOG_BATCH_SIZE` (poller.ts line 117). -/
def ERC_LOG_BATCH_SIZE : Nat := 100

/-- One sub-batch of the poller's inline ERC pass (poller.ts lines
235-277): fetch raw logs, keep those whose first topic matches the
poller's transfer topic (case-insensitively) with at least three
topics, count them per block, resolve each such block's timestamp and
insert a per-block row.  The cycle-scoped timestamp cache only avoids
duplicate RPCs; with a deterministic oracle it is observationally the
direct call, and batching the inserts in groups of
`ERC_INSERT_BATCH_SIZE` leaves the final table contents unchanged, so
both are elided. -/
def pollerErcChunk (env : ChainEnv) (sid : String) (st : Store)
    (c : Nat × Nat) : Store :=
  let logs := env.rawLogs c.1 c.2
  let counts := logs.foldl
    (fun m log =>
      match log.topics.head? with
      | some t0 =>
          if t0.toLower = TRANSFER_EVENT_TOPIC_collector.toLower
              ∧ 3 ≤ log.topics.length
          then bump m log.blockNumber else m
      | none => m) []
  counts.foldl
    (fun acc p =>
      match env.getBlock p.1 with
      | some bi =>
          insertErcBlockRow acc
            { subnetId := sid, blockNumber := p.1, blockTimestamp := bi.timestamp,
              erc20Transfers := p.2, erc721Transfers := 0 }
      | none => acc) st

/-- Result of the live-metrics phase of one subnet's processing. -/
structure LivePhase where
  store : Store
  gasAttempts : List Nat
  skipRest : Bool
deriving DecidableEq

/-- The live-metrics phase (poller.ts lines 161-204): store the latest
block's gas utilization when its gas fields are consistent; when
`gasLimit <= 0` while `gasUsed` is non-zero the source executes
`continue`, which abandons the remainder of this subnet's loop body (the
write of the live sample to `blocktime_samples` carries no
claim-relevant state and is elided). -/
def livePhase (env : ChainEnv) (sid : String) (st : Store) : LivePhase :=
  match env.live with
  | none => { store := st, gasAttempts := [], skipRest := false }
  | some bp =>
      match bp.latestBlock, bp.gasUsed, bp.gasLimit, bp.latestBlockTimestamp with
      | some bn, some gu, some gl, some ts =>
          if 0 < gl then
            { store := addGasUtilizationSample (env.gasInsertOk bn) st sid bn ts gu gl
                (roundTo1 ((gu : ℚ) / (gl : ℚ) * 100)),
              gasAttempts := [bn], skipRest := false }
          else if gl = 0 ∧ gu = 0 then
            { store := addGasUtilizationSample (env.gasInsertOk bn) st sid bn ts gu gl 0,
              gasAttempts := [bn], skipRest := false }
          else
            { store := st, gasAttempts := [], skipRest := true }
      | _, _, _, _ => { store := st, gasAttempts := [], skipRest := false }

/-- What one subnet's processing did during a sweep. -/
structure SubnetResult where
  store : Store
  gasAttempts : List Nat
  reachedExtendedPhase : Bool
  extendedRange : Option (Nat × Nat)
  scanLast : Option Int
deriving DecidableEq

/-- Per-subnet body of `pollSubnetMetrics` (poller.ts lines 158-302):
live phase, then chain head, then the checkpoint read
(`getLastProcessedBlockForSubnet`), the bootstrap
`Math.max(0, head - INITIAL_HISTORICAL_BLOCK_COUNT + 1)` when no
checkpoint exists, the per-cycle cap
`toBlock = Math.min(head, fromBlock + MAX_BLOCKS_TO_PROCESS_PER_CYCLE - 1)`,
the inline ERC pass, and finally
`fetchAndProcessBlockRangeForTransfersAndGas` over the same range (its
returned value is discarded by this version of the poller). -/
def processSubnet (env : ChainEnv) (sid : String) (st : Store) : SubnetResult :=
  let lp := livePhase env sid st
  if lp.skipRest then
    { store := lp.store, gasAttempts := lp.gasAttempts,
      reachedExtendedPhase := false, extendedRange := none, scanLast := none }
  else
    match env.head with
    | none =>
        { store := lp.store, gasAttempts := lp.gasAttempts,
          reachedExtendedPhase := true, extendedRange := none, scanLast := none }
    | some head =>
        let lastProcessed := getLastProcessedBlockForSubnet lp.store sid
        let fromB : Nat :=
          match lastProcessed with
          | none => head + 1 - INITIAL_HISTORICAL_BLOCK_COUNT
          | some l => l + 1
        if fromB > head then
          { store := lp.store, gasAttempts := lp.gasAttempts,
            reachedExtendedPhase := true, extendedRange := none, scanLast := none }
        else
          let toB := min head (fromB + MAX_BLOCKS_TO_PROCESS_PER_CYCLE - 1)
          let st2 := (rangeChunks ERC_LOG_BATCH_SIZE fromB toB).foldl
            (pollerErcChunk env sid) lp.store
          let r := fetchAndProcessBlockRange env sid fromB toB st2
          { store := r.store, gasAttempts := lp.gasAttempts ++ r.gasAttempts,
            reachedExtendedPhase := true, extendedRange := some (fromB, toB),
            scanLast := some r.lastSuccessfullyProcessedBlock }

/-! ### The sweep loop and the single-flight guard (poller.ts lines 122, 141-157, 304-322) -/

/-- Module state of the worker: the `isPolling` flag and the store. -/
structure PollerState where
  isPolling : Bool
  store : Store
deriving DecidableEq

/-- Externally visible actions of one tick. -/
inductive SweepEffect where
  | listTargets
  | targetProcessed (sid : String)
deriving DecidableEq

/-- Environment of one sweep: `getAllSubnetsForPolling` either throws
(caught by the sweep's catch block) or yields the target ids, and each
target has its chain environment. -/
structure SweepEnv where
  subnets : Except String (List String)
  chain : String → ChainEnv

/-- One firing of the interval handler (`pollSubnetMetrics`): a tick
arriving while `isPolling` is set returns at once — no target listing,
no RPC, no store call (the tick is dropped).  Otherwise the sweep runs;
its `finally` clause clears the flag on every exit path, including the
catch of a thrown `getAllSubnetsForPolling`. -/
def pollTick (env : SweepEnv) (s : PollerState) : PollerState × List SweepEffect :=
  if s.isPolling then (s, [])
  else
    match env.subnets with
    | .error _ => ({ s with isPolling := false }, [.listTargets])
    | .ok sids =>
        let st := sids.foldl
          (fun acc sid => (processSubnet (env.chain sid) sid acc).store) s.store
        ({ isPolling := false, store := st },
         .listTargets :: sids.map .targetProcessed)

/-- `s` is a gas-table sub-store of `t`: every persisted gas utilization
row of `s` is still present in `t`. -/
def GasSub (s t : Store) : Prop := ∀ r, r ∈ s.gasRows → r ∈ t.gasRows

/-! ### Concrete environments used to settle individual claims -/

/-- A first sweep for a fresh target on a chain at head 10500 in which
every call succeeds: the live pass sees the head block with
`gasUsed = 50`, `gasLimit = 100`. -/
def envFreshAllOk : ChainEnv :=
  { live := some { latestBlock := some 10500, gasUsed := some 50,
                   gasLimit := some 100, latestBlockTimestamp := some 123456 },
    head := some 10500,
    getLogs := fun _ _ => .ok [],
    rawLogs := fun _ _ => [],
    getBlock := fun _ => none,
    gasInsertOk := fun _ => true }

/-- A first sweep for a fresh target on a chain at head 10500 in which
the live-metrics fetch produced no usable block data (all fields null),
and the extended pass finds exactly one 3-topic transfer log, in block
9000, whose block has `gasUsed = 10`, `gasLimit = 100`. -/
def envFreshLiveNull : ChainEnv :=
  { live := some { latestBlock := none, gasUsed := none,
                   gasLimit := none, latestBlockTimestamp := none },
    head := some 10500,
    getLogs := fun _ _ => .ok [{ topics := ["t0", "t1", "t2"], blockNumber := 9000 }],
    rawLogs := fun _ _ => [],
    getBlock := fun bn =>
      if bn = 9000 then some { timestamp := 540000, gasUsed := 10, gasLimit := 100 }
      else none,
    gasInsertOk := fun _ => true }

/-- A sweep for a fresh target on a tiny chain (head 5): the live pass
has no usable data and the scanned window `[0, 5]` contains a single
transfer log in block 5 (`gasUsed = 10`, `gasLimit = 100`); blocks 0-4
carry no logs. -/
def envSparseLogs : ChainEnv :=
  { live := some { latestBlock := none, gasUsed := none,
                   gasLimit := none, latestBlockTimestamp := none },
    head := some 5,
    getLogs := fun _ _ => .ok [{ topics := ["t0", "t1", "t2"], blockNumber := 5 }],
    rawLogs := fun _ _ => [],
    getBlock := fun bn =>
      if bn = 5 then some { timestamp := 300, gasUsed := 10, gasLimit := 100 }
      else none,
    gasInsertOk := fun _ => true }

/-- A scan environment in which the first sub-range's `eth_getLogs`
returns a 2xx response whose body is a JSON-RPC error object (no
`result` field) and every later sub-range succeeds with no logs. -/
def envErrBodyFirst : ChainEnv :=
  { live := none, head := none,
    getLogs := fun s _ => if s = 0 then .errBody else .ok [],
    rawLogs := fun _ _ => [],
    getBlock := fun _ => none,
    gasInsertOk := fun _ => true }

/-- A scan environment in which the first sub-range succeeds with no
logs and the second sub-range's `eth_getLogs` throws. -/
def envThrowSecond : ChainEnv :=
  { live := none, head := none,
    getLogs := fun s _ => if s = 0 then .ok [] else .throw,
    rawLogs := fun _ _ => [],
    getBlock := fun _ => none,
    gasInsertOk := fun _ => true }

/-- A sweep in which the latest block reported by the live pass is
gas-inconsistent: `gasUsed = 5` with `gasLimit = 0` (the `InvalidBlock`
condition), while the chain itself is reachable (head 100). -/
def envInvalidLatest : ChainEnv :=
  { live := some { latestBlock := some 100, gasUsed := some 5,
                   gasLimit := some 0, latestBlockTimestamp := some 1000 },
    head := some 100,
    getLogs := fun _ _ => .ok [],
    rawLogs := fun _ _ => [],
    getBlock := fun _ => none,
    gasInsertOk := fun _ => true }

/-- A sweep environment whose `getAllSubnetsForPolling` call throws. -/
def envSweepThrows : SweepEnv :=
  { subnets := .error "db down", chain := fun _ => envFreshAllOk }

/-- A store holding one gas utilization sample, for subnet `"s"` at
block 7. -/
def storeOneSample : Store :=
  { gasRows := [{ subnetId := "s", blockNumber := 7, blockTimestamp := 100,
                  gasUsed := 5, gasLimit := 10, utilizationPercentage := 50 }],
    erc20Rows := [], erc721Rows := [], ercBlockRows := [] }

/-! ### Helper lemmas: maxima of block lists and the derived checkpoint -/

theorem maxBlock_eq_none_iff (l : List Nat) : maxBlock l = none ↔ l = [] := by
  cases l with
  | nil => simp [maxBlock]
  | cons x xs =>
      simp only [maxBlock]
      cases maxBlock xs <;> simp

theorem maxBlock_mem : ∀ {l : List Nat} {m : Nat}, maxBlock l = some m → m ∈ l := by
  intro l
  induction l with
  | nil => intro m h; simp [maxBlock] at h
  | cons x xs ih =>
      intro m h
      simp only [maxBlock] at h
      cases hxs : maxBlock xs with
      | none => rw [hxs] at h; simp at h; simp [h]
      | some k =>
          rw [hxs] at h
          simp at h
          rcases max_choice x k with hm | hm
          · have hmx : m = x := by omega
            rw [hmx]; exact List.mem_cons_self _ _
          · have hmk : m = k := by omega
            rw [hmk]; exact List.mem_cons_of_mem _ (ih hxs)

theorem maxBlock_le : ∀ {l : List Nat} {m : Nat}, maxBlock l = some m →
    ∀ x ∈ l, x ≤ m := by
  intro l
  induction l with
  | nil => intro m _ x hx; simp at hx
  | cons y ys ih =>
      intro m h x hx
      simp only [maxBlock] at h
      cases hys : maxBlock ys with
      | none =>
          rw [hys] at h; simp at h
          have : ys = [] := (maxBlock_eq_none_iff ys).1 hys
          subst this
          simp at hx
          omega
      | some k =>
          rw [hys] at h; simp at h
          rcases List.mem_cons.1 hx with rfl | hx'
          · omega
          · have := ih hys x hx'
            omega

theorem maxBlock_ge_of_mem : ∀ {l : List Nat} {x : Nat}, x ∈ l →
    ∃ m, maxBlock l = some m ∧ x ≤ m := by
  intro l
  induction l with
  | nil => intro x hx; simp at hx
  | cons y ys ih =>
      intro x hx
      simp only [maxBlock]
      cases hys : maxBlock ys with
      | none =>
          rcases List.mem_cons.1 hx with rfl | hx'
          · exact ⟨x, rfl, le_refl x⟩
          · rcases ih hx' with ⟨m, hm, _⟩
            rw [hys] at hm; cases hm
      | some k =>
          rcases List.mem_cons.1 hx with rfl | hx'
          · exact ⟨max x k, rfl, Nat.le_max_left x k⟩
          · rcases ih hx' with ⟨m, hm, hxm⟩
            rw [hys] at hm
            have hmk : m = k := by injection hm with h'; exact h'.symm
            subst hmk
            exact ⟨max y m, rfl, le_trans hxm (Nat.le_max_right y m)⟩

theorem getLast_any_of_some {st : Store} {sid : String} {b : Nat}
    (h : getLastProcessedBlockForSubnet st sid = some b) :
    st.gasRows.any (fun r => r.subnetId = sid ∧ r.blockNumber = b) = true := by
  unfold getLastProcessedBlockForSubnet at h
  have hb := maxBlock_mem h
  rcases List.mem_map.1 hb with ⟨r, hrmem, hrb⟩
  rcases List.mem_filter.1 hrmem with ⟨hr, hsid⟩
  rw [List.any_eq_true]
  refine ⟨r, hr, ?_⟩
  simp only [decide_eq_true_eq] at hsid ⊢
  exact ⟨hsid, hrb⟩

theorem getLast_isMax {st : Store} {sid : String} {b : Nat}
    (h : getLastProcessedBlockForSubnet st sid = some b) :
    ∀ r ∈ st.gasRows, r.subnetId = sid → r.blockNumber ≤ b := by
  intro r hr hsid
  unfold getLastProcessedBlockForSubnet at h
  refine maxBlock_le h r.blockNumber ?_
  exact List.mem_map.2 ⟨r, List.mem_filter.2 ⟨hr, by simp [hsid]⟩, rfl⟩

theorem getLast_none_iff {st : Store} {sid : String} :
    getLastProcessedBlockForSubnet st sid = none ↔
      ∀ r ∈ st.gasRows, r.subnetId ≠ sid := by
  unfold getLastProcessedBlockForSubnet
  rw [maxBlock_eq_none_iff, List.eq_nil_iff_forall_not_mem]
  constructor
  · intro h r hr hsid
    exact h r.blockNumber
      (List.mem_map.2 ⟨r, List.mem_filter.2 ⟨hr, by simp [hsid]⟩, rfl⟩)
  · intro h x hx
    rcases List.mem_map.1 hx with ⟨r, hrmem, _⟩
    rcases List.mem_filter.1 hrmem with ⟨hr, hsid⟩
    simp only [decide_eq_true_eq] at hsid
    exact h r hr hsid

theorem getLast_mono_of_sub {s t : Store} (hsub : GasSub s t)
    {sid : String} {b : Nat} (h : getLastProcessedBlockForSubnet s sid = some b) :
    (getLastProcessedBlockForSubnet t sid).isSome = true
    ∧ b ≤ (getLastProcessedBlockForSubnet t sid).getD 0 := by
  unfold getLastProcessedBlockForSubnet at h ⊢
  have hb := maxBlock_mem h
  rcases List.mem_map.1 hb with ⟨r, hrmem, hrb⟩
  rcases List.mem_filter.1 hrmem with ⟨hr, hsid⟩
  have hrt : r ∈ t.gasRows := hsub r hr
  have hmem : b ∈ (t.gasRows.filter (fun r => r.subnetId = sid)).map (·.blockNumber) :=
    List.mem_map.2 ⟨r, List.mem_filter.2 ⟨hrt, hsid⟩, hrb⟩
  rcases maxBlock_ge_of_mem hmem with ⟨m, hm, hbm⟩
  rw [hm]
  exact ⟨rfl, hbm⟩

/-! ### Helper lemmas: the collector only ever adds gas utilization rows -/

theorem gasSub_refl (s : Store) : GasSub s s := fun _ h => h

theorem gasSub_trans {s t u : Store} (h1 : GasSub s t) (h2 : GasSub t u) :
    GasSub s u := fun r hr => h2 r (h1 r hr)

theorem gasSub_addGas (ok : Bool) (st : Store) (sid : String) (bn ts : Nat)
    (gu gl : Int) (util : ℚ) :
    GasSub st (addGasUtilizationSample ok st sid bn ts gu gl util) := by
  intro r hr
  unfold addGasUtilizationSample
  split
  · exact hr
  · split
    · exact List.mem_cons_of_mem _ hr
    · exact hr

theorem gasRows_insertErcBlockRow (st : Store) (r : ErcBlockRow) :
    (insertErcBlockRow st r).gasRows = st.gasRows := by
  unfold insertErcBlockRow
  split <;> rfl

theorem gasSub_scanBlockStep (env : ChainEnv) (sid : String)
    (acc : List (Nat × Nat) × Store × List Nat) (bn : Nat) :
    GasSub acc.2.1 (scanBlockStep env sid acc bn).2.1 := by
  unfold scanBlockStep
  cases env.getBlock bn with
  | none => exact gasSub_refl _
  | some bi =>
      simp only
      split
      · exact gasSub_addGas _ _ _ _ _ _ _ _
      · split
        · exact gasSub_addGas _ _ _ _ _ _ _ _
        · exact gasSub_refl _

theorem gasSub_foldl_scanBlockStep (env : ChainEnv) (sid : String) :
    ∀ (l : List Nat) (acc : List (Nat × Nat) × Store × List Nat),
      GasSub acc.2.1 ((l.foldl (scanBlockStep env sid) acc)).2.1 := by
  intro l
  induction l with
  | nil => intro acc; exact gasSub_refl _
  | cons x xs ih =>
      intro acc
      rw [List.foldl_cons]
      exact gasSub_trans (gasSub_scanBlockStep env sid acc x) (ih _)

theorem gasSub_processBatchLogs (env : ChainEnv) (sid : String)
    (logs : List ScanLog) (s : ScanState) :
    GasSub s.store (processBatchLogs env sid logs s).store := by
  unfold processBatchLogs
  simp only
  exact gasSub_foldl_scanBlockStep env sid _ ([], s.store, [])

theorem gasSub_scanChunkStep (env : ChainEnv) (sid : String) (s : ScanState)
    (c : Nat × Nat) : GasSub s.store (scanChunkStep env sid s c).store := by
  unfold scanChunkStep
  split
  · exact gasSub_refl _
  · cases env.getLogs c.1 c.2 with
    | throw => exact gasSub_refl _
    | errBody => exact gasSub_refl _
    | ok logs =>
        simp only
        exact gasSub_processBatchLogs env sid logs s

theorem gasSub_scanChunks (env : ChainEnv) (sid : String) :
    ∀ (chunks : List (Nat × Nat)) (s : ScanState),
      GasSub s.store (scanChunks env sid chunks s).store := by
  intro chunks
  induction chunks with
  | nil => intro s; exact gasSub_refl _
  | cons c cs ih =>
      intro s
      unfold scanChunks at ih ⊢
      rw [List.foldl_cons]
      exact gasSub_trans (gasSub_scanChunkStep env sid s c) (ih _)

theorem gasRows_ercMinuteFold (sid : String) :
    ∀ (l : List (Nat × Nat)) (st : Store),
      ((l.foldl (fun acc p =>
          { acc with erc20Rows := addErcMinuteCount acc.erc20Rows sid p.1 p.2 }) st)).gasRows
        = st.gasRows := by
  intro l
  induction l with
  | nil => intro st; rfl
  | cons x xs ih => intro st; rw [List.foldl_cons, ih]

theorem gasRows_erc721MinuteFold (sid : String) :
    ∀ (l : List (Nat × Nat)) (st : Store),
      ((l.foldl (fun acc p =>
          { acc with erc721Rows := addErcMinuteCount acc.erc721Rows sid p.1 p.2 }) st)).gasRows
        = st.gasRows := by
  intro l
  induction l with
  | nil => intro st; rfl
  | cons x xs ih => intro st; rw [List.foldl_cons, ih]

theorem applyMinuteUpserts_fields (sid : String) (s : ScanState) :
    (applyMinuteUpserts sid s).attempted = s.attempted
    ∧ (applyMinuteUpserts sid s).lastSuccessfullyProcessedBlock
        = s.lastSuccessfullyProcessedBlock
    ∧ (applyMinuteUpserts sid s).gasAttempts = s.gasAttempts :=
  ⟨rfl, rfl, rfl⟩

theorem gasRows_applyMinuteUpserts (sid : String) (s : ScanState) :
    (applyMinuteUpserts sid s).store.gasRows = s.store.gasRows := by
  unfold applyMinuteUpserts
  simp only
  rw [gasRows_erc721MinuteFold, gasRows_ercMinuteFold]

theorem gasSub_fetchAndProcessBlockRange (env : ChainEnv) (sid : String)
    (fromB toB : Nat) (st : Store) :
    GasSub st (fetchAndProcessBlockRange env sid fromB toB st).store := by
  unfold fetchAndProcessBlockRange
  intro r hr
  rw [gasRows_applyMinuteUpserts]
  exact gasSub_scanChunks env sid _ (scanInit st fromB) r hr

theorem gasRows_pollerErcChunk (env : ChainEnv) (sid : String) (st : Store)
    (c : Nat × Nat) : (pollerErcChunk env sid st c).gasRows = st.gasRows := by
  unfold pollerErcChunk
  simp only
  generalize (List.foldl _ [] _ : List (Nat × Nat)) = counts
  induction counts generalizing st with
  | nil => rfl
  | cons p ps ih =>
      rw [List.foldl_cons]
      cases env.getBlock p.1 with
      | none => exact ih st
      | some bi =>
          simp only
          rw [ih, gasRows_insertErcBlockRow]

theorem gasSub_pollerErcFold (env : ChainEnv) (sid : String) :
    ∀ (l : List (Nat × Nat)) (st : Store),
      GasSub st (l.foldl (pollerErcChunk env sid) st) := by
  intro l
  induction l with
  | nil => intro st; exact gasSub_refl _
  | cons c cs ih =>
      intro st
      rw [List.foldl_cons]
      refine gasSub_trans ?_ (ih _)
      intro r hr
      rw [gasRows_pollerErcChunk]
      exact hr

theorem gasSub_livePhase (env : ChainEnv) (sid : String) (st : Store) :
    GasSub st (livePhase env sid st).store := by
  unfold livePhase
  cases env.live with
  | none => exact gasSub_refl _
  | some bp =>
      rcases bp with ⟨lb, gu, gl, ts⟩
      cases lb with
      | none => exact gasSub_refl _
      | some bn =>
          cases gu with
          | none => exact gasSub_refl _
          | some gu' =>
              cases gl with
              | none => exact gasSub_refl _
              | some gl' =>
                  cases ts with
                  | none => exact gasSub_refl _
                  | some ts' =>
                      simp only
                      split
                      · exact gasSub_addGas _ _ _ _ _ _ _ _
                      · split
                        · exact gasSub_addGas _ _ _ _ _ _ _ _
                        · exact gasSub_refl _

theorem gasSub_processSubnet (env : ChainEnv) (sid : String) (st : Store) :
    GasSub st (processSubnet env sid st).store := by
  unfold processSubnet
  simp only
  split
  · exact gasSub_livePhase env sid st
  · cases env.head with
    | none => exact gasSub_livePhase env sid st
    | some head =>
        simp only
        split
        · exact gasSub_livePhase env sid st
        · exact gasSub_trans (gasSub_livePhase env sid st)
            (gasSub_trans (gasSub_pollerErcFold env sid _ _)
              (gasSub_fetchAndProcessBlockRange env sid _ _ _))

theorem gasSub_sweepFold (env : SweepEnv) :
    ∀ (sids : List String) (st : Store),
      GasSub st (sids.foldl
        (fun acc sid => (processSubnet (env.chain sid) sid acc).store) st) := by
  intro sids
  induction sids with
  | nil => intro st; exact gasSub_refl _
  | cons sid rest ih =>
      intro st
      rw [List.foldl_cons]
      exact gasSub_trans (gasSub_processSubnet (env.chain sid) sid st) (ih _)

theorem gasSub_pollTick (env : SweepEnv) (s : PollerState) :
    GasSub s.store ((pollTick env s).1).store := by
  unfold pollTick
  split
  · exact gasSub_refl _
  · cases env.subnets with
    | error e => exact gasSub_refl _
    | ok sids => exact gasSub_sweepFold env sids s.store

/-! ### Helper lemmas: scan control flow -/

theorem processBatchLogs_fields (env : ChainEnv) (sid : String)
    (logs : List ScanLog) (s : ScanState) :
    (processBatchLogs env sid logs s).halted = s.halted
    ∧ (processBatchLogs env sid logs s).attempted = s.attempted
    ∧ (processBatchLogs env sid logs s).lastSuccessfullyProcessedBlock
        = s.lastSuccessfullyProcessedBlock := by
  unfold processBatchLogs
  exact ⟨rfl, rfl, rfl⟩

theorem scanChunkStep_halted (env : ChainEnv) (sid : String) (s : ScanState)
    (c : Nat × Nat) (h : s.halted = true) : scanChunkStep env sid s c = s := by
  unfold scanChunkStep
  rw [if_pos h]

theorem scanChunks_halted (env : ChainEnv) (sid : String) :
    ∀ (l : List (Nat × Nat)) (s : ScanState), s.halted = true →
      scanChunks env sid l s = s := by
  intro l
  induction l with
  | nil => intro s _; rfl
  | cons c cs ih =>
      intro s h
      unfold scanChunks at ih ⊢
      rw [List.foldl_cons, scanChunkStep_halted env sid s c h]
      exact ih s h

theorem scanChunkStep_throw (env : ChainEnv) (sid : String) (s : ScanState)
    (c : Nat × Nat) (h : s.halted = false)
    (hc : env.getLogs c.1 c.2 = LogsOutcome.throw) :
    scanChunkStep env sid s c
      = { s with attempted := s.attempted ++ [c], halted := true } := by
  unfold scanChunkStep
  rw [if_neg (by simp [h]), hc]

theorem scanChunkStep_errBody (env : ChainEnv) (sid : String) (s : ScanState)
    (c : Nat × Nat) (h : s.halted = false)
    (hc : env.getLogs c.1 c.2 = LogsOutcome.errBody) :
    scanChunkStep env sid s c
      = { s with attempted := s.attempted ++ [c],
                 lastSuccessfullyProcessedBlock := (c.2 : Int) } := by
  unfold scanChunkStep
  rw [if_neg (by simp [h]), hc]

theorem scanChunkStep_ok (env : ChainEnv) (sid : String) (s : ScanState)
    (c : Nat × Nat) (logs : List ScanLog) (h : s.halted = false)
    (hc : env.getLogs c.1 c.2 = LogsOutcome.ok logs) :
    scanChunkStep env sid s c
      = { processBatchLogs env sid logs s with
          attempted := (processBatchLogs env sid logs s).attempted ++ [c],
          lastSuccessfullyProcessedBlock := (c.2 : Int) } := by
  unfold scanChunkStep
  rw [if_neg (by simp [h]), hc]

theorem scanChunkStep_noThrow (env : ChainEnv) (sid : String) (s : ScanState)
    (c : Nat × Nat) (h : s.halted = false)
    (hc : env.getLogs c.1 c.2 ≠ LogsOutcome.throw) :
    (scanChunkStep env sid s c).halted = false
    ∧ (scanChunkStep env sid s c).attempted = s.attempted ++ [c]
    ∧ (scanChunkStep env sid s c).lastSuccessfullyProcessedBlock = (c.2 : Int) := by
  cases hg : env.getLogs c.1 c.2 with
  | throw => exact absurd hg hc
  | errBody =>
      rw [scanChunkStep_errBody env sid s c h hg]
      exact And.intro h (And.intro rfl rfl)
  | ok logs =>
      rw [scanChunkStep_ok env sid s c logs h hg]
      rcases processBatchLogs_fields env sid logs s with ⟨h1, h2, _⟩
      refine And.intro (h1.trans h) (And.intro ?_ rfl)
      show (processBatchLogs env sid logs s).attempted ++ [c] = s.attempted ++ [c]
      rw [h2]

theorem scanChunks_noThrow (env : ChainEnv) (sid : String) :
    ∀ (l : List (Nat × Nat)) (s : ScanState), s.halted = false →
      (∀ c ∈ l, env.getLogs c.1 c.2 ≠ LogsOutcome.throw) →
      (scanChunks env sid l s).halted = false
      ∧ (scanChunks env sid l s).attempted = s.attempted ++ l
      ∧ (scanChunks env sid l s).lastSuccessfullyProcessedBlock
          = (match l.getLast? with
             | none => s.lastSuccessfullyProcessedBlock
             | some c => (c.2 : Int)) := by
  intro l
  induction l with
  | nil =>
      intro s h _
      constructor
      · exact h
      constructor
      · simp [scanChunks]
      · rfl
  | cons c cs ih =>
      intro s h hl
      have hc : env.getLogs c.1 c.2 ≠ LogsOutcome.throw := hl c (List.mem_cons_self _ _)
      rcases scanChunkStep_noThrow env sid s c h hc with ⟨h1, h2, h3⟩
      have hstep : scanChunks env sid (c :: cs) s
          = scanChunks env sid cs (scanChunkStep env sid s c) := by
        unfold scanChunks
        rw [List.foldl_cons]
      rcases ih (scanChunkStep env sid s c) h1
          (fun c' hc' => hl c' (List.mem_cons_of_mem _ hc')) with ⟨ih1, ih2, ih3⟩
      rw [hstep]
      refine ⟨ih1, by rw [ih2, h2, List.append_assoc]; rfl, ?_⟩
      rw [ih3]
      cases cs with
      | nil => simp [h3]
      | cons d ds =>
          rw [List.getLast?_cons_cons]
          cases hgl : (d :: ds).getLast? with
          | none =>
              exfalso
              have hne : d :: ds ≠ [] := by simp
              exact hne (List.getLast?_eq_none_iff.1 hgl)
          | some x => rfl

theorem scanChunks_throwAt (env : ChainEnv) (sid : String)
    (pre : List (Nat × Nat)) (c : Nat × Nat) (post : List (Nat × Nat))
    (s0 : ScanState) (h0 : s0.halted = false)
    (hpre : ∀ c' ∈ pre, env.getLogs c'.1 c'.2 ≠ LogsOutcome.throw)
    (hc : env.getLogs c.1 c.2 = LogsOutcome.throw) :
    (scanChunks env sid (pre ++ c :: post) s0).attempted
        = s0.attempted ++ pre ++ [c]
    ∧ (scanChunks env sid (pre ++ c :: post) s0).lastSuccessfullyProcessedBlock
        = (match pre.getLast? with
           | none => s0.lastSuccessfullyProcessedBlock
           | some p => (p.2 : Int)) := by
  have hsplit : scanChunks env sid (pre ++ c :: post) s0
      = scanChunks env sid (c :: post) (scanChunks env sid pre s0) := by
    unfold scanChunks
    rw [List.foldl_append]
  rcases scanChunks_noThrow env sid pre s0 h0 hpre with ⟨h1, h2, h3⟩
  have hstep : scanChunks env sid (c :: post) (scanChunks env sid pre s0)
      = scanChunks env sid post
          (scanChunkStep env sid (scanChunks env sid pre s0) c) := by
    unfold scanChunks
    rw [List.foldl_cons]
  rw [hsplit, hstep, scanChunkStep_throw env sid _ c h1 hc,
    scanChunks_halted env sid post _ rfl]
  constructor
  · rw [h2, List.append_assoc]
  · exact h3

/-! ### Helper lemmas: minute-bucket counters -/

theorem countOf_bump (m : List (Nat × Nat)) (k : Nat) :
    countOf (bump m k) k = countOf m k + 1 := by
  induction m with
  | nil => simp [bump, countOf, List.lookup]
  | cons p ps ih =>
      rcases p with ⟨a, b⟩
      by_cases hk : a = k
      · subst hk
        simp [bump, countOf, List.lookup]
      · have hne : (k == a) = false :=
          beq_eq_false_iff_ne.2 (fun h => hk h.symm)
        simp only [bump, if_neg hk, countOf, List.lookup, hne]
        exact ih

/-! ### Helper lemmas: live sample edge cases -/

theorem roundTo1_zero : roundTo1 0 = 0 := by
  norm_num [roundTo1, show Int.fdiv 1 2 = 0 from rfl]

theorem tpsOf_neg (c p : Int) (n : Nat) (h : c - p < 0) :
    lastBlockTimeSec c p = none ∧ tpsOf n c p = none := by
  unfold tpsOf lastBlockTimeSec
  rw [if_neg (by omega)]
  exact ⟨rfl, rfl⟩

theorem tpsOf_zero_tx (c p : Int) (h : 0 ≤ c - p) : tpsOf 0 c p = some 0 := by
  unfold tpsOf lastBlockTimeSec
  simp only [if_pos h]
  by_cases hd : 0 < c - p
  · rw [if_pos hd]
    rw [show ((0:Nat) : ℚ) / ((c - p : Int) : ℚ) = 0 by simp]
    rw [roundTo1_zero]
  · rw [if_neg hd]
    have h0 : c - p = 0 := by omega
    simp [h0]

theorem tpsOf_pos_zero_time (c p : Int) (n : Nat) (hn : 0 < n) (h : c - p = 0) :
    tpsOf n c p = none := by
  unfold tpsOf lastBlockTimeSec
  rw [h]
  norm_num
  omega

/-! ### Claims -/

/-- C1, counterexample: in a sweep over `envSparseLogs` the extended
pass covers the batch window `[0, 5]`, the checkpoint read afterwards is
5, yet gas-sample persistence was attempted only for block 5 — the one
block of the window carrying a transfer log.  Blocks 0-4 lie at or
below the checkpoint inside the batch window with their
`GasUtilizationSample` persistence unattempted (they were not skipped by
the documented `InvalidBlock` policy: their details were never fetched),
so the claimed invariant is false at this input. -/
theorem C1_counterexample :
    (processSubnet envSparseLogs "s" emptyStore).extendedRange = some (0, 5)
    ∧ getLastProcessedBlockForSubnet
        (processSubnet envSparseLogs "s" emptyStore).store "s" = some 5
    ∧ (processSubnet envSparseLogs "s" emptyStore).gasAttempts = [5]
    ∧ (processSubnet envSparseLogs "s" emptyStore).gasAttempts.contains 4 = false := by
  refine ⟨?_, ?_, ?_, ?_⟩ <;> decide

/-- C1, amended: the checkpoint can advance past blocks of the batch
window whose gas-sample persistence was never attempted (the scan only
attempts blocks that carry a matching transfer log); what does hold is
that the checkpoint always equals the block number of some durably
persisted gas sample of that target, and it never moves backwards
across a sweep. -/
theorem C1_checkpoint_is_persisted_and_monotone :
    (∀ (st : Store) (sid : String) (b : Nat),
        getLastProcessedBlockForSubnet st sid = some b →
        st.gasRows.any (fun r => r.subnetId = sid ∧ r.blockNumber = b) = true)
    ∧ (∀ (env : ChainEnv) (sid : String) (st : Store) (b : Nat),
        getLastProcessedBlockForSubnet st sid = some b →
        (getLastProcessedBlockForSubnet (processSubnet env sid st).store sid).isSome = true
        ∧ b ≤ (getLastProcessedBlockForSubnet (processSubnet env sid st).store sid).getD 0) := by
  constructor
  · intro st sid b h
    exact getLast_any_of_some h
  · intro env sid st b h
    exact getLast_mono_of_sub (gasSub_processSubnet env sid st) h

/-- C1, witness for the amended theorem at a store holding one sample
at block 7 and a fully successful sweep environment. -/
theorem C1_checkpoint_is_persisted_and_monotone_witness :
    storeOneSample.gasRows.any
        (fun r => r.subnetId = "s" ∧ r.blockNumber = 7) = true
    ∧ (getLastProcessedBlockForSubnet
        (processSubnet envFreshAllOk "s" storeOneSample).store "s").isSome = true
    ∧ 7 ≤ (getLastProcessedBlockForSubnet
        (processSubnet envFreshAllOk "s" storeOneSample).store "s").getD 0 := by
  have h0 : getLastProcessedBlockForSubnet storeOneSample "s" = some 7 := by decide
  have h1 := C1_checkpoint_is_persisted_and_monotone.1 storeOneSample "s" 7 h0
  have h2 := C1_checkpoint_is_persisted_and_monotone.2 envFreshAllOk "s" storeOneSample 7 h0
  exact ⟨h1, h2.1, h2.2⟩

/-- C2, counterexample: for a target with no prior checkpoint and head
10500, a fully successful first sweep does not run an extended pass at
8501 at all, and the checkpoint read by the next sweep is 10500, not
9000 — the live pass persists a gas sample at the head block before the
checkpoint is read, so `getLastProcessedBlockForSubnet` returns 10500
and `fromBlock = 10501 > head`. -/
theorem C2_counterexample :
    (processSubnet envFreshAllOk "s" emptyStore).extendedRange = none
    ∧ getLastProcessedBlockForSubnet
        (processSubnet envFreshAllOk "s" emptyStore).store "s" = some 10500 := by
  refine ⟨?_, ?_⟩ <;> decide

/-- C2, amended: the bootstrap start 8501 and the cap
`toBlock = min(head, fromBlock + 500 - 1) = 9000` are reached only when
no gas sample exists at checkpoint-read time (here: the live pass had no
usable block data); the checkpoint read by the next sweep then equals
the highest block whose gas sample was persisted by the scan (9000 when
block 9000 carried a transfer log).  In a fully successful sweep the
live pass persists the head sample first, the extended pass is skipped,
and the checkpoint reads 10500. -/
theorem C2_bootstrap_and_cap :
    (processSubnet envFreshLiveNull "s" emptyStore).extendedRange = some (8501, 9000)
    ∧ getLastProcessedBlockForSubnet
        (processSubnet envFreshLiveNull "s" emptyStore).store "s" = some 9000
    ∧ (processSubnet envFreshAllOk "s" emptyStore).extendedRange = none
    ∧ getLastProcessedBlockForSubnet
        (processSubnet envFreshAllOk "s" emptyStore).store "s" = some 10500 := by
  refine ⟨?_, ?_, ?_, ?_⟩ <;> decide

/-- C3, counterexample: a JSON-RPC error object delivered with a 2xx
response (`errBody`) on the first sub-range does not stop the scan: the
second sub-range is still attempted in the same call and the returned
`lastSuccessfullyProcessedBlock` is 1999 — the claim requires no further
attempt and a return of `fromBlock - 1 = -1`. -/
theorem C3_counterexample :
    (fetchAndProcessBlockRange envErrBodyFirst "s" 0 1999 emptyStore).attempted
        = [(0, 999), (1000, 1999)]
    ∧ (fetchAndProcessBlockRange envErrBodyFirst "s" 0 1999
        emptyStore).lastSuccessfullyProcessedBlock = 1999 := by
  refine ⟨?_, ?_⟩ <;> decide

/-- C3, amended: when a sub-range's `eth_getLogs` call throws (network
failure, timeout, non-2xx), no later sub-range is attempted and the
returned `lastSuccessfullyProcessedBlock` is the end of the last
sub-range that was marked processed (`fromBlock - 1` when none); a
JSON-RPC error object in a 2xx response body, however, is treated like
an empty result: the sub-range is marked processed and the scan
advances past it. -/
theorem C3_stop_on_thrown_getLogs :
    (∀ (env : ChainEnv) (sid : String) (fromB toB : Nat)
        (pre : List (Nat × Nat)) (c : Nat × Nat) (post : List (Nat × Nat))
        (st : Store),
        rangeChunks MAX_BLOCKS_PER_ETH_GET_LOGS fromB toB = pre ++ c :: post →
        (∀ c' ∈ pre, env.getLogs c'.1 c'.2 ≠ LogsOutcome.throw) →
        env.getLogs c.1 c.2 = LogsOutcome.throw →
        (fetchAndProcessBlockRange env sid fromB toB st).attempted = pre ++ [c]
        ∧ (fetchAndProcessBlockRange env sid fromB toB
            st).lastSuccessfullyProcessedBlock
            = (match pre.getLast? with
               | none => (fromB : Int) - 1
               | some p => (p.2 : Int)))
    ∧ (∀ (env : ChainEnv) (sid : String) (s : ScanState) (c : Nat × Nat),
        s.halted = false → env.getLogs c.1 c.2 = LogsOutcome.errBody →
        scanChunkStep env sid s c
          = { s with attempted := s.attempted ++ [c],
                     lastSuccessfullyProcessedBlock := (c.2 : Int) }) := by
  constructor
  · intro env sid fromB toB pre c post st hch hpre hc
    have h := scanChunks_throwAt env sid pre c post (scanInit st fromB) rfl hpre hc
    unfold fetchAndProcessBlockRange
    rw [hch]
    rcases applyMinuteUpserts_fields sid
        (scanChunks env sid (pre ++ c :: post) (scanInit st fromB)) with ⟨ha, hl, _⟩
    constructor
    · rw [ha, h.1]
      simp [scanInit]
    · rw [hl, h.2]
      cases pre.getLast? <;> rfl
  · intro env sid s c h hb
    exact scanChunkStep_errBody env sid s c h hb

/-- C3, witness for the amended theorem: a two-sub-range scan whose
second sub-range throws, and one `errBody` step. -/
theorem C3_stop_on_thrown_getLogs_witness :
    (fetchAndProcessBlockRange envThrowSecond "s" 0 1999 emptyStore).attempted
        = [(0, 999)] ++ [(1000, 1999)]
    ∧ (fetchAndProcessBlockRange envThrowSecond "s" 0 1999
        emptyStore).lastSuccessfullyProcessedBlock = 999
    ∧ scanChunkStep envErrBodyFirst "s" (scanInit emptyStore 0) (0, 999)
        = { scanInit emptyStore 0 with
            attempted := [(0, 999)], lastSuccessfullyProcessedBlock := 999 } := by
  have h := C3_stop_on_thrown_getLogs.1 envThrowSecond "s" 0 1999
    [(0, 999)] (1000, 1999) [] emptyStore (by decide) (by decide) (by decide)
  have h2 := C3_stop_on_thrown_getLogs.2 envErrBodyFirst "s"
    (scanInit emptyStore 0) (0, 999) rfl (by decide)
  refine ⟨h.1, ?_, ?_⟩
  · have := h.2
    simpa using this
  · simpa using h2

/-- C4: the collector's transfer-detection paths (the scan's
`eth_getLogs` request and the poller's raw-log fetch) filter on the
module constant `TRANSFER_EVENT_TOPIC`, whose value
`0x...163c4a123bf2ecdcdffac2282` is NOT the canonical
`Transfer(address,address,uint256)` signature hash — only the backfill
script carries the canonical `0x...163c4a11628f55a4df523b3ef`.  The
claim is therefore false on the collector; the inline comments ("Only
Transfer(address,address,uint256/tokenId)") and the backfill script
show the canonical hash was the intent, so this is a code bug: the
collector's log filter can never match a real `Transfer` event. -/
theorem C4_collector_topic_not_canonical :
    scanGetLogsTopics = [TRANSFER_EVENT_TOPIC_collector]
    ∧ pollerRawLogsRequestTopics = [TRANSFER_EVENT_TOPIC_collector]
    ∧ (TRANSFER_EVENT_TOPIC_collector == canonicalTransferTopic) = false
    ∧ TRANSFER_EVENT_TOPIC_backfill = canonicalTransferTopic := by
  refine ⟨?_, ?_, ?_, ?_⟩ <;> decide

/-- C5: within a scan, a log whose block timestamp resolved increments
exactly one minute bucket: 3 topics increments the ERC-20 counter of
its block's minute, 4 topics the ERC-721 counter, and any other topic
count leaves both counters unchanged. -/
theorem C5_topic_count_classification :
    ∀ (tsMap : List (Nat × Nat)) (counts : List (Nat × Nat) × List (Nat × Nat))
      (log : ScanLog) (ts : Nat),
      tsMap.lookup log.blockNumber = some ts →
      (log.topics.length = 3 →
          countOf (classifyLog tsMap counts log).1 (ts / 60)
            = countOf counts.1 (ts / 60) + 1
          ∧ (classifyLog tsMap counts log).2 = counts.2)
      ∧ (log.topics.length = 4 →
          (classifyLog tsMap counts log).1 = counts.1
          ∧ countOf (classifyLog tsMap counts log).2 (ts / 60)
              = countOf counts.2 (ts / 60) + 1)
      ∧ (log.topics.length ≠ 3 → log.topics.length ≠ 4 →
          classifyLog tsMap counts log = counts) := by
  intro tsMap counts log ts h
  refine ⟨?_, ?_, ?_⟩
  · intro h3
    simp only [classifyLog, h, h3]
    exact ⟨countOf_bump _ _, rfl⟩
  · intro h4
    have h3 : ¬ log.topics.length = 3 := by omega
    simp only [classifyLog, h, h4, h3]
    exact ⟨rfl, countOf_bump _ _⟩
  · intro h3 h4
    simp only [classifyLog, h, h3, h4]
    rfl

/-- C5, witness: one 3-topic, one 4-topic and one 2-topic log against a
resolved timestamp of 360 (minute bucket 6). -/
theorem C5_topic_count_classification_witness :
    countOf (classifyLog [(12, 360)] ([], [])
        { topics := ["a", "b", "c"], blockNumber := 12 }).1 6 = 1
    ∧ (classifyLog [(12, 360)] ([], [])
        { topics := ["a", "b", "c", "d"], blockNumber := 12 }).1 = []
    ∧ classifyLog [(12, 360)] ([], []) { topics := ["a", "b"], blockNumber := 12 }
        = ([], []) := by
  have h1 := (C5_topic_count_classification [(12, 360)] ([], [])
      { topics := ["a", "b", "c"], blockNumber := 12 } 360 (by decide)).1 (by decide)
  have h2 := (C5_topic_count_classification [(12, 360)] ([], [])
      { topics := ["a", "b", "c", "d"], blockNumber := 12 } 360 (by decide)).2.1 (by decide)
  have h3 := (C5_topic_count_classification [(12, 360)] ([], [])
      { topics := ["a", "b"], blockNumber := 12 } 360 (by decide)).2.2
      (by decide) (by decide)
  refine ⟨?_, h2.1, h3⟩
  have h1' := h1.1
  simpa [countOf] using h1'

/-- C6: when the live pass sees a gas-inconsistent latest block
(`gasUsed = 5`, `gasLimit = 0`), the poller's `continue` abandons the
whole remainder of that subnet's loop body — the extended-metrics pass
(chain-head fetch, checkpoint read, scan) never runs in that sweep, even
though the code's own comment says control should "move to the next
part of the loop (historical/batch processing)".  In the scan itself the
same condition skips only the one block.  The claim matches the
documented intent; the code contradicts it, so this is a code bug. -/
theorem C6_invalid_latest_skips_target :
    (processSubnet envInvalidLatest "s" emptyStore).reachedExtendedPhase = false
    ∧ (processSubnet envInvalidLatest "s" emptyStore).gasAttempts = []
    ∧ (processSubnet envInvalidLatest "s" emptyStore).store = emptyStore := by
  refine ⟨?_, ?_, ?_⟩ <;> decide

/-- C7: two writes of the same `(target, minute)` bucket with counts 3
and then 5 leave a stored count of 5, not 3 + 5 = 8: the
`resolution=merge-duplicates` upsert replaces the conflicting row with
the incoming values.  The spec's design notes identify the additive
merge as the intent and call this overwrite a bug, so the claim is
right and the code is wrong. -/
theorem C7_minute_bucket_last_write_wins :
    addErcMinuteCount (addErcMinuteCount [] "s" 0 3) "s" 0 5
      = [{ subnetId := "s", minuteTimestamp := 0, transferCount := 5 }] := by
  decide

/-- C8: a negative block-time difference makes the block time
unavailable and the TPS null; a zero transaction count with a
non-negative block time yields an explicit TPS of 0.0; a positive
transaction count with a zero block time yields a null TPS, and the
sink helper `addTpsSample` leaves the table untouched for a null
value. -/
theorem C8_tps_rules :
    (∀ (c p : Int) (n : Nat), c - p < 0 →
        lastBlockTimeSec c p = none ∧ tpsOf n c p = none)
    ∧ (∀ (c p : Int), 0 ≤ c - p → tpsOf 0 c p = some 0)
    ∧ (∀ (c p : Int) (n : Nat), 0 < n → c - p = 0 →
        tpsOf n c p = none
        ∧ ∀ (tbl : List TpsRow) (sid : String),
            addTpsSample tbl sid (tpsOf n c p) = tbl) := by
  refine ⟨?_, ?_, ?_⟩
  · exact tpsOf_neg
  · exact tpsOf_zero_tx
  · intro c p n hn h
    have ht := tpsOf_pos_zero_time c p n hn h
    refine ⟨ht, ?_⟩
    intro tbl sid
    rw [ht]
    rfl

/-- C8, witness: block pairs with time differences -2, 2 and 0. -/
theorem C8_tps_rules_witness :
    (lastBlockTimeSec 5 7 = none ∧ tpsOf 10 5 7 = none)
    ∧ tpsOf 0 10 8 = some 0
    ∧ (tpsOf 10 8 8 = none ∧ addTpsSample [] "s" (tpsOf 10 8 8) = []) := by
  have h1 := C8_tps_rules.1 5 7 10 (by decide)
  have h2 := C8_tps_rules.2.1 10 8 (by decide)
  have h3 := C8_tps_rules.2.2 8 8 10 (by decide) (by decide)
  exact ⟨h1, h2, ⟨h3.1, h3.2 [] "s"⟩⟩

/-- C9: a tick that fires while `isPolling` is set returns the state
unchanged with no effects at all (no target listing, no RPC, no store
call) — the tick is dropped, not queued; and a sweep started from an
idle state always finishes with the flag cleared, whether the target
listing succeeds, returns nothing, or throws. -/
theorem C9_single_flight :
    (∀ (env : SweepEnv) (s : PollerState), s.isPolling = true →
        pollTick env s = (s, []))
    ∧ (∀ (env : SweepEnv) (s : PollerState), s.isPolling = false →
        ((pollTick env s).1).isPolling = false) := by
  constructor
  · intro env s h
    unfold pollTick
    rw [if_pos h]
  · intro env s h
    unfold pollTick
    rw [if_neg (by simp [h])]
    cases env.subnets with
    | error e => rfl
    | ok sids => rfl

/-- C9, witness: an in-flight state drops the tick; an idle state ends
a throwing sweep with the flag cleared. -/
theorem C9_single_flight_witness :
    pollTick envSweepThrows { isPolling := true, store := emptyStore }
        = ({ isPolling := true, store := emptyStore }, [])
    ∧ ((pollTick envSweepThrows
        { isPolling := false, store := emptyStore }).1).isPolling = false :=
  ⟨C9_single_flight.1 envSweepThrows _ rfl,
   C9_single_flight.2 envSweepThrows _ rfl⟩

/-- C10: the checkpoint read is the maximum `block_number` among the
target's persisted gas utilization samples, absent exactly when the
target has none; rows are only ever inserted, so the value read never
decreases across a sweep; and a failed (swallowed) gas-sample insert
leaves the table — hence the checkpoint — unchanged. -/
theorem C10_checkpoint_from_gas_samples :
    (∀ (st : Store) (sid : String) (b : Nat),
        getLastProcessedBlockForSubnet st sid = some b →
        st.gasRows.any (fun r => r.subnetId = sid ∧ r.blockNumber = b) = true
        ∧ ∀ r ∈ st.gasRows, r.subnetId = sid → r.blockNumber ≤ b)
    ∧ (∀ (st : Store) (sid : String),
        getLastProcessedBlockForSubnet st sid = none ↔
          ∀ r ∈ st.gasRows, r.subnetId ≠ sid)
    ∧ (∀ (env : SweepEnv) (s : PollerState) (sid : String) (b : Nat),
        getLastProcessedBlockForSubnet s.store sid = some b →
        (getLastProcessedBlockForSubnet ((pollTick env s).1).store sid).isSome = true
        ∧ b ≤ (getLastProcessedBlockForSubnet ((pollTick env s).1).store sid).getD 0)
    ∧ (∀ (st : Store) (sid : String) (bn ts : Nat) (gu gl : Int) (u : ℚ),
        addGasUtilizationSample false st sid bn ts gu gl u = st) := by
  refine ⟨?_, ?_, ?_, ?_⟩
  · intro st sid b h
    exact ⟨getLast_any_of_some h, getLast_isMax h⟩
  · intro st sid
    exact getLast_none_iff
  · intro env s sid b h
    exact getLast_mono_of_sub (gasSub_pollTick env s) h
  · intro st sid bn ts gu gl u
    unfold addGasUtilizationSample
    split
    · rfl
    · simp

/-- C10, witness: a store with one sample at block 7, the empty store,
and a sweep whose target listing throws. -/
theorem C10_checkpoint_from_gas_samples_witness :
    storeOneSample.gasRows.any
        (fun r => r.subnetId = "s" ∧ r.blockNumber = 7) = true
    ∧ getLastProcessedBlockForSubnet emptyStore "s" = none
    ∧ (getLastProcessedBlockForSubnet ((pollTick envSweepThrows
        { isPolling := false, store := storeOneSample }).1).store "s").isSome = true
    ∧ 7 ≤ (getLastProcessedBlockForSubnet ((pollTick envSweepThrows
        { isPolling := false, store := storeOneSample }).1).store "s").getD 0
    ∧ addGasUtilizationSample false emptyStore "s" 1 2 3 4 5 = emptyStore := by
  have h0 : getLastProcessedBlockForSubnet storeOneSample "s" = some 7 := by decide
  have h1 := C10_checkpoint_from_gas_samples.1 storeOneSample "s" 7 h0
  have h2 := (C10_checkpoint_from_gas_samples.2.1 emptyStore "s").2
    (by intro r hr; simp [emptyStore] at hr)
  have h3 := C10_checkpoint_from_gas_samples.2.2.1 envSweepThrows
    { isPolling := false, store := storeOneSample } "s" 7 h0
  have h4 := C10_checkpoint_from_gas_samples.2.2.2 emptyStore "s" 1 2 3 4 5
  exact ⟨h1.1, h2, h3.1, h3.2, h4⟩

end AvaScope
